import Mathlib

/-!
Verification of the Localization-Pro PDF-to-localization pipeline.

This file gives a shallow embedding of the core pipeline found in the
repository service module (`processPdfForLocalization` and its helpers):
text-extraction branch choice, per-page OCR orchestration with batching,
error classification of translation-service failures, cross-page
consolidation (de-duplication), progress reporting, canvas lifecycle during
rasterization, and materialization of the four generated Flutter files.

External effects (the PDF library, the canvas, the generative-model backend)
are modelled as explicit inputs: a run configuration carries the extracted
text strings, the outcome of each page render, and the outcome of each
translation-service call, so the pipeline itself is a pure function from a
configuration to a result plus the list of emitted progress events.
-/

namespace LocalizationPro

/-- Structure `TranslationPair` from the repository types module:
`{ key, en_text, ar_text }`. -/
structure TranslationPair where
  key : String
  en_text : String
  ar_text : String
  deriving DecidableEq, Repr

/-- Structure `GeneratedFile` from the repository types module: `{ filename, content }`. -/
structure GeneratedFile where
  filename : String
  content : String
  deriving DecidableEq, Repr

/-- One call of the progress callback: `onProgress(message, percentage)`. -/
structure ProgressEvent where
  message : String
  percentage : Nat
  deriving DecidableEq, Repr

/-- One rendered page image part: `{ data, mimeType }` (base64 payload). -/
structure ImagePart where
  data : String
  mimeType : String
  deriving DecidableEq, Repr

/-- Outcome of `page.render(...)` followed by `canvas.toDataURL` for one page:
either the base64 payload (possibly empty, mirroring a falsy split result),
or a thrown error message. -/
inductive RenderOutcome where
  | ok (data : String)
  | err (msg : String)
  deriving DecidableEq, Repr

/-- JavaScript `Math.round` on the non-negative rational `num / den`:
round-half-up, i.e. `⌊num/den + 1/2⌋`. -/
def jsRound (num den : Nat) : Nat :=
  (2 * num + den) / (2 * den)

/-- Whether the first character list starts the second one. -/
def charsStart : List Char → List Char → Bool
  | [], _ => true
  | _ :: _, [] => false
  | a :: as, b :: bs => a == b && charsStart as bs

/-- Whether the first character list occurs contiguously in the second. -/
def charsContain (needle hay : List Char) : Bool :=
  charsStart needle hay ||
    match hay with
    | [] => false
    | _ :: rest => charsContain needle rest

/-- JavaScript `hay.includes(needle)` on JavaScript strings. -/
def includesStr (hay needle : String) : Bool :=
  charsContain needle.toList hay.toList

/-- Whether a character list begins with a match of the regex `\[5\d{2}\]`:
a literal `[5`, two digits, then `]`. -/
def fiveXXHead : List Char → Bool
  | '[' :: '5' :: d1 :: d2 :: ']' :: _ => d1.isDigit && d2.isDigit
  | _ => false

/-- Whether the regex `\[5\d{2}\]` matches anywhere in the character list. -/
def fiveXXAux : List Char → Bool
  | [] => false
  | c :: rest => fiveXXHead (c :: rest) || fiveXXAux rest

/-- The test of the regex against `msg`: the message embeds a 5xx status like `[503]`. -/
def hasFiveXX (s : String) : Bool :=
  fiveXXAux s.toList

/-- The `"Rpc failed"` token matched by both error classifiers. -/
def rpcFailedToken : String := "Rpc failed"

/-- The `"API key"` token matched by the OCR per-page error classifier. -/
def apiKeyToken : String := "API key"

/-- The message thrown when a service failure is classified as critical
(authentication / billing / quota / 5xx). -/
def criticalServiceMessage : String :=
  "API call failed. Check your API key and billing status. This may also be a temporary Google Cloud issue."

/-- The message thrown by the text-based path for unclassified failures. -/
def unknownErrorMessage : String :=
  "An unknown error occurred while generating translations."

/-- The message thrown when the direct-path model response fails to parse. -/
def invalidResponseMessage : String :=
  "The AI returned an invalid response. Please try again."

/-- The message thrown when the consolidated record list is empty. -/
def noLocalizableTextMessage : String :=
  "No localizable text was found in the PDF. The file might be empty or contain only images with no recognizable text."

/-- The message thrown when the 2d canvas context cannot be created. -/
def noCanvasContextMessage : String :=
  "Could not create canvas context for rendering PDF."

/-- The message thrown when rasterization yields no image parts. -/
def noImagesMessage : String :=
  "Could not convert PDF to images for OCR processing."

/-- The critical-error test used in `processPage` (OCR path):
`e.message.includes('Rpc failed') || /\[5\d{2}\]/.test(e.message) || e.message.includes('API key')`. -/
def isCriticalMessage (m : String) : Bool :=
  includesStr m rpcFailedToken || hasFiveXX m || includesStr m apiKeyToken

/-- The critical-error test used in `generateKeysAndTranslations` (text path):
`e.message.includes('Rpc failed') || /\[5\d{2}\]/.test(e.message)`. -/
def isCriticalTextMessage (m : String) : Bool :=
  includesStr m rpcFailedToken || hasFiveXX m

/-- JavaScript `String.prototype.trim`: remove leading and trailing
whitespace. -/
def jsTrim (s : String) : String :=
  String.mk
    (((s.toList.dropWhile Char.isWhitespace).reverse.dropWhile
        Char.isWhitespace).reverse)

/-- JavaScript `String.prototype.toLowerCase` (ASCII case folding). -/
def jsToLower (s : String) : String :=
  String.mk (s.toList.map Char.toLower)

/-- The normalized identity computed by the cross-page consolidation:
`item.en_text.trim().toLowerCase() || item.ar_text.trim()` — the trimmed,
lowercased English text, falling back (JavaScript `||`) to the trimmed
Arabic text when the former is the empty string. -/
def normIdent (p : TranslationPair) : String :=
  let e := jsToLower (jsTrim p.en_text)
  if e = "" then jsTrim p.ar_text else e

/-- The `uniqueTranslations` map loop of `generateLocalizationFromPdfImages`,
with the set of already-inserted identities made explicit: a record is kept
iff its normalized identity is non-empty (`if (uniqueKey ...)`) and not yet
in the map (`!uniqueTranslations.has(uniqueKey)`); output order is map
insertion order. -/
def dedupGo (seen : List String) : List TranslationPair → List TranslationPair
  | [] => []
  | p :: rest =>
    let k := normIdent p
    if k ≠ "" ∧ k ∉ seen then p :: dedupGo (k :: seen) rest
    else dedupGo seen rest

/-- The cross-page consolidation of `generateLocalizationFromPdfImages`
(lines building `uniqueTranslations` and returning its values). -/
def dedupTranslations (l : List TranslationPair) : List TranslationPair :=
  dedupGo [] l

/-- Specification-style reformulation of the consolidation: keep a record
iff its normalized identity is non-empty and no earlier record has the same
identity; equivalently, keep the head when its identity is non-empty and
drop every later record sharing it. -/
def dedupKeepFirst : List TranslationPair → List TranslationPair
  | [] => []
  | p :: rest =>
    if normIdent p = "" then dedupKeepFirst rest
    else p :: dedupKeepFirst (rest.filter (fun q => normIdent q != normIdent p))
  termination_by l => l.length
  decreasing_by
    · simp
    · simp only [List.length_cons]
      exact Nat.lt_succ_of_le (List.length_filter_le _ _)

/-- The literal reading of the consolidation claim: keep, in encounter
order, the first record seen for each distinct normalized identity — with
no special treatment of the empty identity. -/
def dedupKeepFirstAll : List TranslationPair → List TranslationPair
  | [] => []
  | p :: rest =>
    p :: dedupKeepFirstAll (rest.filter (fun q => normIdent q != normIdent p))
  termination_by l => l.length
  decreasing_by
    simp only [List.length_cons]
    exact Nat.lt_succ_of_le (List.length_filter_le _ _)

/-! ### File materializer (`generateFlutterFiles`) -/

/-- One JavaScript object assignment `obj[k] = v` on a flat string map:
an existing key keeps its position and gets the new value; a new key is
appended (JavaScript objects preserve first-insertion order). -/
def jsObjectInsert (obj : List (String × String)) (k v : String) :
    List (String × String) :=
  if obj.any (fun e => e.1 == k) then
    obj.map (fun e => if e.1 == k then (e.1, v) else e)
  else obj ++ [(k, v)]

/-- The `enTranslations` object built by the materializer loop. -/
def buildEnMap (data : List TranslationPair) : List (String × String) :=
  data.foldl (fun obj it => jsObjectInsert obj it.key it.en_text) []

/-- The `arTranslations` object built by the materializer loop. -/
def buildArMap (data : List TranslationPair) : List (String × String) :=
  data.foldl (fun obj it => jsObjectInsert obj it.key it.ar_text) []

/-- The `allKeys` set accumulated by the materializer loop: first-insertion
order with duplicates dropped (JavaScript `Set` membership). -/
def uniqueKeys : List String → List String
  | [] => []
  | k :: rest => k :: uniqueKeys (rest.filter (fun x => x != k))
  termination_by l => l.length
  decreasing_by
    simp only [List.length_cons]
    exact Nat.lt_succ_of_le (List.length_filter_le _ _)

/-- Model of `Array.from(allKeys).sort()`: the unique keys in ascending order. -/
def sortedKeysOf (data : List TranslationPair) : List String :=
  List.insertionSort (· ≤ ·) (uniqueKeys (data.map TranslationPair.key))

/-- JSON escaping of one character as performed by `JSON.stringify` for the
common cases (quote, backslash, and the usual control characters). -/
def jsonEscapeChar (c : Char) : String :=
  if c = '"' then ("\\\"")
  else if c = '\\' then ("\\\\")
  else if c = '\n' then ("\\n")
  else if c = '\t' then ("\\t")
  else if c = '\r' then ("\\r")
  else String.singleton c

/-- A JSON string literal for `s`. -/
def jsonQuote (s : String) : String :=
  "\"" ++ String.join (s.toList.map jsonEscapeChar) ++ "\""

/-- Model of `JSON.stringify(obj, null, 2)` on a flat string-to-string object. -/
def jsonStringifyMap (obj : List (String × String)) : String :=
  match obj with
  | [] => "\x7b\x7d"
  | _ =>
    "\x7b\n" ++
      String.intercalate (",\n")
        (obj.map (fun e => "  " ++ jsonQuote e.1 ++ ": " ++ jsonQuote e.2)) ++
      "\n\x7d"

/-- The `locale_keys.g.dart` template with the sorted keys interpolated. -/
def localeKeysContent (sortedKeys : List String) : String :=
  "// DO NOT EDIT. This is code generated via package:easy_localization/generate.dart\n\nabstract class  LocaleKeys \x7b\n" ++
    String.intercalate ("\n")
      (sortedKeys.map (fun key => "  static const " ++ key ++ " = \x27" ++ key ++ "\x27;")) ++
    "\n\n\x7d\n"

/-- The `codegen_loader.dart` template with both serialized maps interpolated. -/
def codegenLoaderContent (arMapString enMapString : String) : String :=
  "// DO NOT EDIT. This is code generated via package:easy_localization/generate.dart\n\n" ++
  "// ignore_for_file: prefer_single_quotes, avoid_renaming_method_parameters, constant_identifier_names\n\n" ++
  "import \x27dart:ui\x27;\n\n" ++
  "import \x27package:easy_localization/easy_localization.dart\x27 show AssetLoader;\n\n" ++
  "class CodegenLoader extends AssetLoader\x7b\n" ++
  "  const CodegenLoader();\n\n" ++
  "  @override\n" ++
  "  Future<Map<String, dynamic>?> load(String path, Locale locale) \x7b\n" ++
  "    return Future.value(mapLocales[locale.toString()]);\n" ++
  "  \x7d\n\n" ++
  "  static const Map<String,dynamic> _ar = " ++ arMapString ++ ";\n" ++
  "  static const Map<String,dynamic> _en = " ++ enMapString ++ ";\n" ++
  "  static const Map<String, Map<String,dynamic>> mapLocales = \x7b\"ar\": _ar, \"en\": _en\x7d;\n" ++
  "\x7d\n"

/-- Function `generateFlutterFiles`: turn the consolidated records into the four
generated files (`ar.json`, `en.json`, `locale_keys.g.dart`,
`codegen_loader.dart`). -/
def generateFlutterFiles (data : List TranslationPair) : List GeneratedFile :=
  let enTranslations := buildEnMap data
  let arTranslations := buildArMap data
  let sortedKeys := sortedKeysOf data
  let localeKeys := localeKeysContent sortedKeys
  let arMapString := jsonStringifyMap arTranslations
  let enMapString := jsonStringifyMap enTranslations
  [ ⟨"ar.json", arMapString⟩,
    ⟨"en.json", enMapString⟩,
    ⟨"locale_keys.g.dart", localeKeys⟩,
    ⟨"codegen_loader.dart", codegenLoaderContent arMapString enMapString⟩ ]

/-! ### Pipeline (rasterization, OCR orchestration, controller) -/

/-- A run configuration: the outcomes of all external effects one run can
observe. `texts` is the unique-string list produced by `extractTextFromPdf`;
`directCall` is the outcome of the single text-based model call (`.error m`
= the call threw with message `m`, `.ok none` = it returned unparseable
text, `.ok (some ps)` = it returned records `ps`); `contextOk` is whether
`canvas.getContext` succeeds; `pageRenders` holds one outcome per PDF page;
`ocrOracle i` is the outcome of the OCR model call on image part `i`
(a thrown message, or the parsed records). -/
structure RunConfig where
  texts : List String
  directCall : Except String (Option (List TranslationPair))
  contextOk : Bool
  pageRenders : List RenderOutcome
  ocrOracle : Nat → Except String (List TranslationPair)

/-- Function `generateKeysAndTranslations` (text path): a thrown call error is
re-classified (`Rpc failed` / embedded 5xx → the critical-service message,
anything else → the unknown-error message); a response that does not parse
throws the invalid-response message; otherwise the parsed records are
returned. -/
def generateKeysAndTranslations
    (call : Except String (Option (List TranslationPair))) :
    Except String (List TranslationPair) :=
  match call with
  | .error m =>
    if isCriticalTextMessage m then Except.error criticalServiceMessage
    else Except.error unknownErrorMessage
  | .ok none => Except.error invalidResponseMessage
  | .ok (some ps) => Except.ok ps

/-- The per-page progress event of `convertPdfPagesToImageParts`:
`Math.round((i / numPages) * 30)` with `numPages = n`. -/
def pageEvent (n i : Nat) : ProgressEvent :=
  ⟨"Converting page " ++ toString i ++ "/" ++ toString n ++ " to image...",
    jsRound (i * 30) n⟩

/-- The page loop of `convertPdfPagesToImageParts`: `n` is the page count,
`i` the 1-based index of the first remaining page. Each iteration first
emits the progress event `Math.round((i / numPages) * 30)`, then renders;
a throw aborts the loop, a falsy base64 payload is skipped. Returns the
image parts (or the thrown message) and the emitted events. -/
def renderPages (n : Nat) : List RenderOutcome → Nat →
    Except String (List ImagePart) × List ProgressEvent
  | [], _ => (Except.ok [], [])
  | r :: rest, i =>
    match r with
    | RenderOutcome.err m => (Except.error m, [pageEvent n i])
    | RenderOutcome.ok data =>
      match renderPages n rest (i + 1) with
      | (Except.error m, evs) => (Except.error m, pageEvent n i :: evs)
      | (Except.ok parts, evs) =>
        (Except.ok (if data ≠ "" then ⟨data, "image/jpeg"⟩ :: parts else parts),
          pageEvent n i :: evs)

/-- Function `convertPdfPagesToImageParts`: create the canvas, fail if no 2d context
is available, render every page, then `canvas.remove()`. The middle
component records whether the canvas is still attached (not removed) when
the function returns or throws. -/
def convertPdfPagesToImageParts (contextOk : Bool)
    (renders : List RenderOutcome) :
    Except String (List ImagePart) × Bool × List ProgressEvent :=
  if contextOk then
    match renderPages renders.length renders 1 with
    | (Except.ok parts, evs) => (Except.ok parts, false, evs)
    | (Except.error m, evs) => (Except.error m, true, evs)
  else (Except.error noCanvasContextMessage, true, [])

/-- Function `processPage` (OCR path): a successful call contributes its records; a
thrown message matching the critical patterns is re-thrown as the
critical-service message; any other failure is logged and the page
contributes an empty list. -/
def processPage (r : Except String (List TranslationPair)) :
    Except String (List TranslationPair) :=
  match r with
  | .ok ps => Except.ok ps
  | .error m =>
    if isCriticalMessage m then Except.error criticalServiceMessage
    else Except.ok []

/-- Split a list of page indices into the `BATCH_SIZE = 5` slices taken by
the OCR batch loop. -/
def chunk5 : List Nat → List (List Nat)
  | [] => []
  | [a] => [[a]]
  | [a, b] => [[a, b]]
  | [a, b, c] => [[a, b, c]]
  | [a, b, c, d] => [[a, b, c, d]]
  | [a, b, c, d, e] => [[a, b, c, d, e]]
  | a :: b :: c :: d :: e :: f :: rest => [a, b, c, d, e] :: chunk5 (f :: rest)

/-- Model of `Promise.all` over one batch of page indices: the first page whose
`processPage` throws determines the batch error; otherwise the batch yields
the concatenation of the page results in index order. -/
def runBatch (oracle : Nat → Except String (List TranslationPair))
    (idxs : List Nat) : Except String (List TranslationPair) :=
  idxs.foldr
    (fun i acc =>
      match processPage (oracle i), acc with
      | Except.error m, _ => Except.error m
      | Except.ok _, Except.error m => Except.error m
      | Except.ok ps, Except.ok rest => Except.ok (ps ++ rest))
    (Except.ok [])

/-- The per-batch progress event of the OCR loop:
`Math.round(30 + (batchStartIndex / imageParts.length) * 60)`, with the
message naming pages `s+1` through `min(s+5, total)`. -/
def batchEvent (total s : Nat) : ProgressEvent :=
  ⟨"Processing OCR on pages " ++ toString (s + 1) ++ "-" ++
      toString (min (s + 5) total) ++ "...",
    jsRound (30 * total + 60 * s) total⟩

/-- The sequential batch loop of `generateLocalizationFromPdfImages`:
before each batch it emits the progress event
`Math.round(30 + (batchStartIndex / imageParts.length) * 60)`; a batch
error aborts the loop; otherwise results accumulate in order. -/
def processBatches (oracle : Nat → Except String (List TranslationPair))
    (total : Nat) :
    List (List Nat) → Except String (List TranslationPair) × List ProgressEvent
  | [] => (Except.ok [], [])
  | batch :: rest =>
    match runBatch oracle batch with
    | Except.error m => (Except.error m, [batchEvent total (batch.headD 0)])
    | Except.ok ps =>
      match processBatches oracle total rest with
      | (Except.error m, evs) =>
        (Except.error m, batchEvent total (batch.headD 0) :: evs)
      | (Except.ok more, evs) =>
        (Except.ok (ps ++ more), batchEvent total (batch.headD 0) :: evs)

/-- Function `generateLocalizationFromPdfImages`: rasterize, fail when no image part
was produced, drive the OCR batches, then emit the 90% consolidation event
and de-duplicate the aggregated records. -/
def generateLocalizationFromPdfImages (cfg : RunConfig) :
    Except String (List TranslationPair) × List ProgressEvent :=
  match convertPdfPagesToImageParts cfg.contextOk cfg.pageRenders with
  | (Except.error m, _, evs) => (Except.error m, evs)
  | (Except.ok parts, _, evs) =>
    if parts.length = 0 then (Except.error noImagesMessage, evs)
    else
      match processBatches cfg.ocrOracle parts.length
          (chunk5 (List.range parts.length)) with
      | (Except.error m, evs2) => (Except.error m, evs ++ evs2)
      | (Except.ok allTranslations, evs2) =>
        (Except.ok (dedupTranslations allTranslations),
          evs ++ evs2 ++ [⟨"Consolidating results...", 90⟩])

/-- The branch decision of `processPdfForLocalization`:
`texts.length > 5` selects the direct-translation path, otherwise the
image-based OCR path. -/
inductive PipelinePath where
  | direct
  | ocr
  deriving DecidableEq, Repr

/-- The test `if (texts.length > 5)` in `processPdfForLocalization`. -/
def chooseExtractionPath (texts : List String) : PipelinePath :=
  if texts.length > 5 then PipelinePath.direct else PipelinePath.ocr

/-- The `localizationData` computed by `processPdfForLocalization` before
the empty check, together with all progress events emitted so far. -/
def pipelineData (cfg : RunConfig) :
    Except String (List TranslationPair) × List ProgressEvent :=
  let ev0 : ProgressEvent := ⟨"Extracting text from PDF...", 5⟩
  match chooseExtractionPath cfg.texts with
  | PipelinePath.direct =>
    (generateKeysAndTranslations cfg.directCall,
      [ev0, ⟨"Generating keys & translations...", 50⟩])
  | PipelinePath.ocr =>
    let (res, evs) := generateLocalizationFromPdfImages cfg
    (res,
      ev0 :: ⟨"Text extraction insufficient. Starting OCR process...", 10⟩ :: evs)

/-- Function `processPdfForLocalization`: run the chosen path, fail with the
no-localizable-text message on an empty record list, otherwise emit the 95%
event and materialize the four files. The second component is the full
sequence of progress events of the run. -/
def processPdfForLocalization (cfg : RunConfig) :
    Except String (List GeneratedFile) × List ProgressEvent :=
  match pipelineData cfg with
  | (Except.error m, evs) => (Except.error m, evs)
  | (Except.ok localizationData, evs) =>
    if localizationData.length = 0 then
      (Except.error noLocalizableTextMessage, evs)
    else
      (Except.ok (generateFlutterFiles localizationData),
        evs ++ [⟨"Constructing Flutter files...", 95⟩])

/-! ### Concrete run configurations used as witnesses -/

/-- A sample translation record with a non-empty normalized identity. -/
def pHello : TranslationPair := ⟨"hello_key", "Hello", "marhaban"⟩

/-- Six extracted strings: above the `> 5` threshold. -/
def sixTexts : List String := ["t1", "t2", "t3", "t4", "t5", "t6"]

/-- A direct-path run whose model call parses to one record. -/
def cfgDirectOk : RunConfig :=
  { texts := sixTexts
  , directCall := Except.ok (some [pHello])
  , contextOk := true
  , pageRenders := []
  , ocrOracle := fun _ => Except.ok [] }

/-- An OCR-path run with one page whose model call yields one record. -/
def cfgOcrOk : RunConfig :=
  { texts := []
  , directCall := Except.ok none
  , contextOk := true
  , pageRenders := [RenderOutcome.ok ("img")]
  , ocrOracle := fun _ => Except.ok [pHello] }

/-- An OCR-path run with one page whose model call yields no records. -/
def cfgOcrEmpty : RunConfig :=
  { texts := []
  , directCall := Except.ok none
  , contextOk := true
  , pageRenders := [RenderOutcome.ok ("img")]
  , ocrOracle := fun _ => Except.ok [] }

/-- Whether an `Except` value is a success. -/
def exceptIsOk {ε α : Type} : Except ε α → Bool
  | Except.ok _ => true
  | Except.error _ => false

/-- A record whose English text duplicates `pairDupA` up to case. -/
def pairDupB : TranslationPair := ⟨"b_key", "Hello", "x"⟩

/-- A record whose English text duplicates `pairDupB` up to case. -/
def pairDupA : TranslationPair := ⟨"a_key", "hello", "y"⟩

/-- A direct-path run whose model call returns two records with the same
normalized English text and descending keys. -/
def cfgDirectDup : RunConfig :=
  { texts := sixTexts
  , directCall := Except.ok (some [pairDupB, pairDupA])
  , contextOk := true
  , pageRenders := []
  , ocrOracle := fun _ => Except.ok [] }

/-- The number of image parts produced by rasterization (0 when
rasterization fails). -/
def ocrImagePartsCount (cfg : RunConfig) : Nat :=
  match (convertPdfPagesToImageParts cfg.contextOk cfg.pageRenders).1 with
  | Except.ok parts => parts.length
  | Except.error _ => 0

/-- A direct-path run whose model call throws an RPC failure. -/
def cfgDirectCrit : RunConfig :=
  { texts := sixTexts
  , directCall := Except.error ("Rpc failed: backend unavailable")
  , contextOk := true
  , pageRenders := []
  , ocrOracle := fun _ => Except.ok [] }

/-- An OCR-path run whose only page throws a `[503]`-status failure. -/
def cfgOcrCrit : RunConfig :=
  { texts := []
  , directCall := Except.ok none
  , contextOk := true
  , pageRenders := [RenderOutcome.ok ("img")]
  , ocrOracle := fun _ => Except.error ("[503] Service Unavailable") }

/-- Whether a list of reported percentages is monotonically non-decreasing. -/
def nondecreasing : List Nat → Bool
  | [] => true
  | [_] => true
  | a :: b :: rest => decide (a ≤ b) && nondecreasing (b :: rest)

/-- A 7-page OCR-path run in which every page succeeds: the run completes,
yet the percentage sequence dips from the 10% OCR-start event to the first
rasterization event `Math.round((1/7)*30) = 4`. -/
def cfgOcr7 : RunConfig :=
  { texts := []
  , directCall := Except.ok none
  , contextOk := true
  , pageRenders := List.replicate 7 (RenderOutcome.ok ("img"))
  , ocrOracle := fun _ => Except.ok [pHello] }

/-! ### Properties of the cross-page consolidation -/

theorem mem_dedupGo {p : TranslationPair} :
    ∀ (l : List TranslationPair) (seen : List String),
      p ∈ dedupGo seen l →
        normIdent p ≠ "" ∧ normIdent p ∉ seen ∧ p ∈ l := by
  intro l
  induction l with
  | nil => intro seen h; simp [dedupGo] at h
  | cons q rest ih =>
    intro seen h
    simp only [dedupGo] at h
    split at h
    · rename_i hcond
      rcases List.mem_cons.mp h with hq | hq
      · subst hq
        exact ⟨hcond.1, hcond.2, List.mem_cons_self _ _⟩
      · obtain ⟨h1, h2, h3⟩ := ih _ hq
        refine ⟨h1, fun hs => h2 (List.mem_cons_of_mem _ hs), List.mem_cons_of_mem _ h3⟩
    · obtain ⟨h1, h2, h3⟩ := ih _ h
      exact ⟨h1, h2, List.mem_cons_of_mem _ h3⟩

theorem pairwise_dedupGo :
    ∀ (l : List TranslationPair) (seen : List String),
      (dedupGo seen l).Pairwise (fun a b => normIdent a ≠ normIdent b) := by
  intro l
  induction l with
  | nil => intro seen; simp [dedupGo]
  | cons q rest ih =>
    intro seen
    simp only [dedupGo]
    split
    · refine List.Pairwise.cons ?_ (ih _)
      intro b hb hEq
      have hmem := (mem_dedupGo _ _ hb).2.1
      exact hmem (hEq ▸ List.mem_cons_self _ _)
    · exact ih _

theorem dedupGo_eq_self :
    ∀ (l : List TranslationPair) (seen : List String),
      (∀ p ∈ l, normIdent p ≠ "" ∧ normIdent p ∉ seen) →
      l.Pairwise (fun a b => normIdent a ≠ normIdent b) →
      dedupGo seen l = l := by
  intro l
  induction l with
  | nil => intro seen _ _; rfl
  | cons q rest ih =>
    intro seen hfresh hpw
    have hq := hfresh q (List.mem_cons_self _ _)
    simp only [dedupGo, if_pos (And.intro hq.1 hq.2)]
    have hpw' := List.pairwise_cons.mp hpw
    refine congrArg (q :: ·) (ih _ ?_ hpw'.2)
    intro p hp
    refine ⟨(hfresh p (List.mem_cons_of_mem _ hp)).1, ?_⟩
    intro hs
    rcases List.mem_cons.mp hs with hs | hs
    · exact hpw'.1 p hp hs.symm
    · exact (hfresh p (List.mem_cons_of_mem _ hp)).2 hs

/-- Claim C8 — The cross-page consolidation is idempotent: applying
`dedupTranslations` to its own output returns that output unchanged. -/
theorem consolidation_idempotent (l : List TranslationPair) :
    dedupTranslations (dedupTranslations l) = dedupTranslations l := by
  refine dedupGo_eq_self _ _ ?_ (pairwise_dedupGo _ _)
  intro p hp
  exact ⟨(mem_dedupGo _ _ hp).1, by simp⟩

/-- Claim C10 — A record whose `en_text` and `ar_text` both trim to the
empty string has the empty normalized identity and is dropped entirely by
the cross-page consolidation: it never appears in the output of
`dedupTranslations`. -/
theorem empty_identity_dropped (l : List TranslationPair)
    (p : TranslationPair)
    (hen : jsTrim p.en_text = "") (har : jsTrim p.ar_text = "") :
    p ∉ dedupTranslations l := by
  intro hmem
  have hid : normIdent p = "" := by
    simp only [normIdent, hen, har]
    rfl
  exact (mem_dedupGo _ _ hmem).1 hid

theorem empty_identity_dropped_witness :
    jsTrim (TranslationPair.mk "k" " " "").en_text = "" ∧
    jsTrim (TranslationPair.mk "k" " " "").ar_text = "" ∧
    (TranslationPair.mk "k" " " "") ∉
      dedupTranslations [TranslationPair.mk "k" " " ""] :=
  ⟨by decide, by decide,
    empty_identity_dropped [TranslationPair.mk "k" " " ""]
      (TranslationPair.mk "k" " " "") (by decide) (by decide)⟩

theorem dedupGo_eq_keepFirst :
    ∀ (l : List TranslationPair) (seen : List String),
      dedupGo seen l =
        dedupKeepFirst (l.filter (fun p => !(seen.contains (normIdent p)))) := by
  intro l
  induction l with
  | nil => intro seen; simp [dedupGo, dedupKeepFirst]
  | cons p rest ih =>
    intro seen
    by_cases hs : normIdent p ∈ seen
    · have hc : (seen.contains (normIdent p)) = true := by
        simpa using hs
      have hcond : ¬(normIdent p ≠ "" ∧ normIdent p ∉ seen) := by
        intro h; exact h.2 hs
      simp only [dedupGo, if_neg hcond, List.filter_cons, hc, Bool.not_true]
      exact ih seen
    · have hc : (seen.contains (normIdent p)) = false := by
        simpa using hs
      by_cases hk : normIdent p = ""
      · have hcond : ¬(normIdent p ≠ "" ∧ normIdent p ∉ seen) := by
          intro h; exact h.1 hk
        simp only [dedupGo, if_neg hcond, List.filter_cons, hc, Bool.not_false,
          if_pos trivial]
        rw [dedupKeepFirst, if_pos hk]
        exact ih seen
      · have hcond : normIdent p ≠ "" ∧ normIdent p ∉ seen := ⟨hk, hs⟩
        simp only [dedupGo, if_pos hcond, List.filter_cons, hc, Bool.not_false,
          if_pos trivial]
        rw [dedupKeepFirst, if_neg hk]
        refine congrArg (p :: ·) ?_
        rw [ih (normIdent p :: seen), List.filter_filter]
        refine congrArg dedupKeepFirst (List.filter_congr ?_)
        intro q _
        simp only [List.contains_cons, Bool.not_or, bne]

/-- Counterexample to claim C2 as stated: a record whose normalized
identity is empty (both texts trim to the empty string) is the first — and
only — record of its identity, yet the consolidation drops it instead of
returning it. -/
theorem consolidation_keep_first_counterexample :
    dedupTranslations [TranslationPair.mk "k" "" ""] = [] ∧
    dedupKeepFirstAll [TranslationPair.mk "k" "" ""] =
      [TranslationPair.mk "k" "" ""] ∧
    dedupTranslations [TranslationPair.mk "k" "" ""] ≠
      dedupKeepFirstAll [TranslationPair.mk "k" "" ""] := by
  refine ⟨by decide, ?_, ?_⟩
  · simp [dedupKeepFirstAll]
  · intro h
    rw [show dedupTranslations [TranslationPair.mk "k" "" ""] = [] from by decide] at h
    simp [dedupKeepFirstAll] at h

/-- Claim C2 (amended) — The cross-page consolidation computes each
record's identity as `en_text` trimmed and lowercased, falling back to
`ar_text` trimmed when the trimmed `en_text` is empty, and returns, in
encounter order, exactly the first record seen for each distinct
*non-empty* identity; records whose identity is empty are dropped. -/
theorem consolidation_keep_first_amended (l : List TranslationPair) :
    dedupTranslations l = dedupKeepFirst l := by
  rw [dedupTranslations, dedupGo_eq_keepFirst l []]
  refine congrArg dedupKeepFirst ?_
  simp

/-! ### Claim C1: the extraction-count branch -/

/-- Claim C1 — After text extraction the pipeline branches on the number of
unique extracted strings: strictly more than 5 takes the direct-translation
path, 5 or fewer takes the image-based OCR path. -/
theorem branch_threshold (cfg : RunConfig) :
    (5 < cfg.texts.length →
      chooseExtractionPath cfg.texts = PipelinePath.direct ∧
      (pipelineData cfg).1 = generateKeysAndTranslations cfg.directCall) ∧
    (cfg.texts.length ≤ 5 →
      chooseExtractionPath cfg.texts = PipelinePath.ocr ∧
      (pipelineData cfg).1 = (generateLocalizationFromPdfImages cfg).1) := by
  constructor
  · intro h
    have hp : chooseExtractionPath cfg.texts = PipelinePath.direct := by
      simp [chooseExtractionPath, h]
    exact ⟨hp, by simp [pipelineData, hp]⟩
  · intro h
    have hp : chooseExtractionPath cfg.texts = PipelinePath.ocr := by
      simp only [chooseExtractionPath, gt_iff_lt, ite_eq_right_iff]
      intro hlt
      omega
    refine ⟨hp, ?_⟩
    rcases hgen : generateLocalizationFromPdfImages cfg with ⟨res, evs⟩
    simp [pipelineData, hp, hgen]

theorem branch_threshold_witness :
    (5 < cfgDirectOk.texts.length ∧
      chooseExtractionPath cfgDirectOk.texts = PipelinePath.direct ∧
      (pipelineData cfgDirectOk).1 =
        generateKeysAndTranslations cfgDirectOk.directCall) ∧
    (cfgOcrOk.texts.length ≤ 5 ∧
      chooseExtractionPath cfgOcrOk.texts = PipelinePath.ocr ∧
      (pipelineData cfgOcrOk).1 = (generateLocalizationFromPdfImages cfgOcrOk).1) :=
  ⟨⟨by decide, (branch_threshold cfgDirectOk).1 (by decide)⟩,
    ⟨by decide, (branch_threshold cfgOcrOk).2 (by decide)⟩⟩

/-! ### Claim C5: empty consolidated set fails the run -/

/-- Claim C5 — If the record list produced by either path is empty, the run
fails with the no-localizable-text error (and hence produces no files). -/
theorem empty_result_no_localizable_text (cfg : RunConfig)
    (h : (pipelineData cfg).1 = Except.ok []) :
    (processPdfForLocalization cfg).1 = Except.error noLocalizableTextMessage := by
  rcases hpd : pipelineData cfg with ⟨res, evs⟩
  rw [hpd] at h
  simp only at h
  subst h
  simp [processPdfForLocalization, hpd]

theorem empty_result_no_localizable_text_witness :
    (pipelineData cfgOcrEmpty).1 = Except.ok [] ∧
    (processPdfForLocalization cfgOcrEmpty).1 =
      Except.error noLocalizableTextMessage :=
  ⟨rfl, empty_result_no_localizable_text cfgOcrEmpty rfl⟩

/-! ### Claim C9: canvas lifecycle during rasterization -/

/-- Counterexample to claim C9 as stated: when rendering the (only) page
throws, `convertPdfPagesToImageParts` propagates the error with the canvas
still attached — `canvas.remove()` is never reached on this failure path. -/
theorem canvas_release_counterexample :
    (convertPdfPagesToImageParts true [RenderOutcome.err ("render failed")]).1 =
      Except.error ("render failed") ∧
    (convertPdfPagesToImageParts true [RenderOutcome.err ("render failed")]).2.1 =
      true :=
  ⟨rfl, rfl⟩

/-- Claim C9 (amended) — The rasterization canvas is removed before
`convertPdfPagesToImageParts` returns exactly on the success path; on every
failure path (missing 2d context, or a page render that throws) the canvas
is still attached when the error propagates. -/
theorem canvas_release_amended (contextOk : Bool)
    (renders : List RenderOutcome) :
    (convertPdfPagesToImageParts contextOk renders).2.1 =
      !exceptIsOk (convertPdfPagesToImageParts contextOk renders).1 := by
  cases contextOk with
  | false => rfl
  | true =>
    rcases hr : renderPages renders.length renders 1 with ⟨res, evs⟩
    cases res with
    | ok parts => simp [convertPdfPagesToImageParts, hr, exceptIsOk]
    | error m => simp [convertPdfPagesToImageParts, hr, exceptIsOk]

/-! ### Claim C3: the list passed to file materialization -/

/-- Counterexample to claim C3 as stated: a successful direct-path run
passes the model response to file materialization unchanged — here two
distinct records sharing one case-insensitive-normalized `en_text`, with
keys out of ascending order — so the materialization input is neither
de-duplicated nor ordered by key. -/
theorem materialization_dedup_counterexample :
    (pipelineData cfgDirectDup).1 = Except.ok [pairDupB, pairDupA] ∧
    normIdent pairDupB = normIdent pairDupA ∧
    pairDupB ≠ pairDupA ∧
    pairDupB.key = "b_key" ∧ pairDupA.key = "a_key" ∧
    (processPdfForLocalization cfgDirectDup).1 =
      Except.ok (generateFlutterFiles [pairDupB, pairDupA]) :=
  ⟨rfl, by decide, by decide, rfl, rfl, rfl⟩

theorem gen_images_ok_dedup (cfg : RunConfig) (data : List TranslationPair)
    (h : (generateLocalizationFromPdfImages cfg).1 = Except.ok data) :
    ∃ all, data = dedupTranslations all := by
  rcases hconv : convertPdfPagesToImageParts cfg.contextOk cfg.pageRenders
    with ⟨res, alive, evs⟩
  cases res with
  | error m => simp [generateLocalizationFromPdfImages, hconv] at h
  | ok parts =>
    by_cases hlen : parts.length = 0
    · simp [generateLocalizationFromPdfImages, hconv, hlen] at h
    · rcases hb : processBatches cfg.ocrOracle parts.length
          (chunk5 (List.range parts.length)) with ⟨bres, bevs⟩
      cases bres with
      | error m =>
        simp [generateLocalizationFromPdfImages, hconv, hlen, hb] at h
      | ok allTranslations =>
        refine ⟨allTranslations, ?_⟩
        simp [generateLocalizationFromPdfImages, hconv, hlen, hb] at h
        exact h.symm

/-- Claim C3 (amended) — On every successful OCR-path run the record list
passed to file materialization is the cross-page consolidation output, in
which no two records share a case-insensitive-normalized `en_text` (falling
back to `ar_text` when `en_text` is empty). The list is in first-encounter
order, not ordered by key, and the direct-text path passes the model
response through without this deduplication. -/
theorem materialization_dedup_ocr_path (cfg : RunConfig)
    (data : List TranslationPair)
    (hlen : cfg.texts.length ≤ 5)
    (hdata : (pipelineData cfg).1 = Except.ok data) :
    data.Pairwise (fun a b => normIdent a ≠ normIdent b) := by
  have hp : chooseExtractionPath cfg.texts = PipelinePath.ocr := by
    simp only [chooseExtractionPath, gt_iff_lt, ite_eq_right_iff]
    intro hlt
    omega
  rcases hgen : generateLocalizationFromPdfImages cfg with ⟨res, evs⟩
  rw [pipelineData] at hdata
  rw [hp] at hdata
  rw [hgen] at hdata
  simp only at hdata
  subst hdata
  obtain ⟨all, rfl⟩ :=
    gen_images_ok_dedup cfg data (by rw [hgen])
  exact pairwise_dedupGo _ _

theorem materialization_dedup_ocr_path_witness :
    cfgOcrOk.texts.length ≤ 5 ∧
    (pipelineData cfgOcrOk).1 = Except.ok [pHello] ∧
    List.Pairwise (fun a b => normIdent a ≠ normIdent b) [pHello] :=
  ⟨by decide, rfl,
    materialization_dedup_ocr_path cfgOcrOk [pHello] (by decide) rfl⟩

/-! ### Claim C4: critical service failures abort the run -/

theorem pipelineData_direct (cfg : RunConfig) (h : 5 < cfg.texts.length) :
    (pipelineData cfg).1 = generateKeysAndTranslations cfg.directCall := by
  have hp : chooseExtractionPath cfg.texts = PipelinePath.direct := by
    simp [chooseExtractionPath, h]
  simp [pipelineData, hp]

theorem pipelineData_ocr (cfg : RunConfig) (h : cfg.texts.length ≤ 5) :
    (pipelineData cfg).1 = (generateLocalizationFromPdfImages cfg).1 := by
  have hp : chooseExtractionPath cfg.texts = PipelinePath.ocr := by
    simp only [chooseExtractionPath, gt_iff_lt, ite_eq_right_iff]
    intro hlt
    omega
  rcases hgen : generateLocalizationFromPdfImages cfg with ⟨res, evs⟩
  simp [pipelineData, hp, hgen]

theorem run_error_of_data_error (cfg : RunConfig) (m : String)
    (h : (pipelineData cfg).1 = Except.error m) :
    (processPdfForLocalization cfg).1 = Except.error m := by
  rcases hpd : pipelineData cfg with ⟨res, evs⟩
  rw [hpd] at h
  simp only at h
  subst h
  simp [processPdfForLocalization, hpd]

theorem processPage_error (r : Except String (List TranslationPair))
    (m : String) (h : processPage r = Except.error m) :
    m = criticalServiceMessage := by
  cases r with
  | ok ps => simp [processPage] at h
  | error m0 =>
    simp only [processPage] at h
    split at h
    · exact (Except.error.injEq _ _ ▸ h).symm
    · simp at h

theorem runBatch_error_critical
    (oracle : Nat → Except String (List TranslationPair)) :
    ∀ (idxs : List Nat) (m : String),
      runBatch oracle idxs = Except.error m → m = criticalServiceMessage := by
  intro idxs
  induction idxs with
  | nil => intro m h; simp [runBatch] at h
  | cons i rest ih =>
    intro m h
    rw [runBatch, List.foldr_cons] at h
    rcases hpp : processPage (oracle i) with m1 | ps
    · rw [hpp] at h
      simp only at h
      exact (processPage_error (oracle i) m (hpp.trans (congrArg _ (by
        cases h; rfl))))
    · rw [hpp] at h
      rcases hrb : List.foldr _ (Except.ok []) rest with m2 | rest2
      · rw [hrb] at h
        simp only at h
        cases h
        exact ih m (by rw [runBatch, hrb])
      · rw [hrb] at h
        simp at h

theorem runBatch_error_of_mem
    (oracle : Nat → Except String (List TranslationPair))
    (idxs : List Nat) (i : Nat) (m : String)
    (hmem : i ∈ idxs) (herr : processPage (oracle i) = Except.error m) :
    ∃ msg, runBatch oracle idxs = Except.error msg := by
  induction idxs with
  | nil => cases hmem
  | cons j rest ih =>
    rw [runBatch, List.foldr_cons]
    rcases List.mem_cons.mp hmem with hj | hj
    · subst hj
      rw [herr]
      exact ⟨m, rfl⟩
    · rcases hpp : processPage (oracle j) with m1 | ps
      · exact ⟨m1, rfl⟩
      · obtain ⟨msg, hmsg⟩ := ih hj
        rw [runBatch] at hmsg
        rw [hmsg]
        exact ⟨msg, rfl⟩

theorem processBatches_error_critical
    (oracle : Nat → Except String (List TranslationPair)) (total : Nat) :
    ∀ (batches : List (List Nat)) (m : String),
      (processBatches oracle total batches).1 = Except.error m →
      m = criticalServiceMessage := by
  intro batches
  induction batches with
  | nil => intro m h; simp [processBatches] at h
  | cons b rest ih =>
    intro m h
    rw [processBatches] at h
    rcases hrb : runBatch oracle b with m1 | ps
    · rw [hrb] at h
      simp only at h
      cases h
      exact runBatch_error_critical oracle b m hrb
    · rw [hrb] at h
      rcases hpr : processBatches oracle total rest with ⟨bres, bevs⟩
      rw [hpr] at h
      cases bres with
      | error m2 =>
        simp only at h
        cases h
        exact ih m (by rw [hpr])
      | ok more => simp at h

theorem processBatches_error_of_mem
    (oracle : Nat → Except String (List TranslationPair)) (total : Nat)
    (batches : List (List Nat)) (b : List Nat) (i : Nat) (m : String)
    (hb : b ∈ batches) (hi : i ∈ b)
    (herr : processPage (oracle i) = Except.error m) :
    ∃ msg, (processBatches oracle total batches).1 = Except.error msg := by
  induction batches with
  | nil => cases hb
  | cons b0 rest ih =>
    rw [processBatches]
    rcases hrb : runBatch oracle b0 with m1 | ps
    · exact ⟨m1, rfl⟩
    · rcases List.mem_cons.mp hb with hb0 | hb0
      · obtain ⟨msg, hmsg⟩ := runBatch_error_of_mem oracle b i m hi herr
        rw [hb0] at hmsg
        rw [hmsg] at hrb
        cases hrb
      · obtain ⟨msg, hmsg⟩ := ih hb0
        rcases hpr : processBatches oracle total rest with ⟨bres, bevs⟩
        rw [hpr] at hmsg
        simp only at hmsg
        subst hmsg
        exact ⟨msg, rfl⟩

theorem chunk5_flatten : ∀ l : List Nat, (chunk5 l).flatten = l := by
  intro l
  induction l using chunk5.induct with
  | case1 => rfl
  | case2 a => rfl
  | case3 a b => rfl
  | case4 a b c => rfl
  | case5 a b c d => rfl
  | case6 a b c d e => rfl
  | case7 a b c d e f rest ih =>
    rw [chunk5, List.flatten_cons, ih]
    rfl

theorem chunk5_mem (x : Nat) (l : List Nat) (h : x ∈ l) :
    ∃ b ∈ chunk5 l, x ∈ b := by
  have hx : x ∈ (chunk5 l).flatten := by rw [chunk5_flatten]; exact h
  obtain ⟨b, hb, hxb⟩ := List.mem_flatten.mp hx
  exact ⟨b, hb, hxb⟩

theorem ocr_critical_aborts (cfg : RunConfig) (i : Nat) (m : String)
    (hcount : i < ocrImagePartsCount cfg)
    (horacle : cfg.ocrOracle i = Except.error m)
    (hcrit : isCriticalMessage m = true) :
    (generateLocalizationFromPdfImages cfg).1 =
      Except.error criticalServiceMessage := by
  rcases hconv : convertPdfPagesToImageParts cfg.contextOk cfg.pageRenders
    with ⟨res, alive, evs⟩
  cases res with
  | error m0 =>
    rw [ocrImagePartsCount, hconv] at hcount
    simp at hcount
  | ok parts =>
    rw [ocrImagePartsCount, hconv] at hcount
    simp only at hcount
    have hlen : ¬(parts.length = 0) := by omega
    have hpp : processPage (cfg.ocrOracle i) = Except.error criticalServiceMessage := by
      rw [horacle]
      simp [processPage, hcrit]
    obtain ⟨b, hb, hib⟩ := chunk5_mem i (List.range parts.length)
      (List.mem_range.mpr hcount)
    obtain ⟨msg, hmsg⟩ := processBatches_error_of_mem cfg.ocrOracle
      parts.length (chunk5 (List.range parts.length)) b i
      criticalServiceMessage hb hib hpp
    have hmc := processBatches_error_critical cfg.ocrOracle parts.length
      (chunk5 (List.range parts.length)) msg hmsg
    subst hmc
    rcases hpb : processBatches cfg.ocrOracle parts.length
        (chunk5 (List.range parts.length)) with ⟨bres, bevs⟩
    rw [hpb] at hmsg
    simp only at hmsg
    subst hmsg
    simp [generateLocalizationFromPdfImages, hconv, hlen, hpb]

/-- Claim C4 — A translation-service failure whose message matches the
critical patterns (generic RPC failure, an embedded 5xx status code such as
`[503]`, or explicit API-key wording) aborts the entire run: on the
direct-text path the run ends in an error, and on the OCR path even a
single failing page aborts the whole run with the critical-service message;
in both cases no output files are produced. -/
theorem critical_service_error_aborts (cfg : RunConfig) (m : String) (i : Nat) :
    (5 < cfg.texts.length → cfg.directCall = Except.error m →
      isCriticalMessage m = true →
      ∃ msg, (processPdfForLocalization cfg).1 = Except.error msg) ∧
    (cfg.texts.length ≤ 5 → i < ocrImagePartsCount cfg →
      cfg.ocrOracle i = Except.error m → isCriticalMessage m = true →
      (processPdfForLocalization cfg).1 =
        Except.error criticalServiceMessage) := by
  constructor
  · intro hlen hcall _
    have hdata : (pipelineData cfg).1 =
        generateKeysAndTranslations cfg.directCall := pipelineData_direct cfg hlen
    rw [hcall] at hdata
    rw [generateKeysAndTranslations] at hdata
    split at hdata
    · exact ⟨criticalServiceMessage, run_error_of_data_error cfg _ hdata⟩
    · exact ⟨unknownErrorMessage, run_error_of_data_error cfg _ hdata⟩
  · intro hlen hcount horacle hcrit
    have hgen := ocr_critical_aborts cfg i m hcount horacle hcrit
    have hdata := (pipelineData_ocr cfg hlen).trans hgen
    exact run_error_of_data_error cfg _ hdata

theorem critical_service_error_aborts_witness :
    (5 < cfgDirectCrit.texts.length ∧
      cfgDirectCrit.directCall = Except.error ("Rpc failed: backend unavailable") ∧
      isCriticalMessage ("Rpc failed: backend unavailable") = true ∧
      ∃ msg, (processPdfForLocalization cfgDirectCrit).1 = Except.error msg) ∧
    (cfgOcrCrit.texts.length ≤ 5 ∧
      0 < ocrImagePartsCount cfgOcrCrit ∧
      cfgOcrCrit.ocrOracle 0 = Except.error ("[503] Service Unavailable") ∧
      isCriticalMessage ("[503] Service Unavailable") = true ∧
      (processPdfForLocalization cfgOcrCrit).1 =
        Except.error criticalServiceMessage) :=
  ⟨⟨by decide, rfl, by decide,
      (critical_service_error_aborts cfgDirectCrit
          ("Rpc failed: backend unavailable") 0).1 (by decide) rfl (by decide)⟩,
    ⟨by decide, by decide, rfl, by decide,
      (critical_service_error_aborts cfgOcrCrit
          ("[503] Service Unavailable") 0).2 (by decide) (by decide) rfl
        (by decide)⟩⟩

/-! ### Claim C7: sorted keys in `locale_keys.g.dart` -/

theorem uniqueKeys_subset : ∀ l : List String, uniqueKeys l ⊆ l := by
  intro l
  induction l using uniqueKeys.induct with
  | case1 => intro x hx; simp [uniqueKeys] at hx
  | case2 k rest ih =>
    intro x hx
    rw [uniqueKeys] at hx
    rcases List.mem_cons.mp hx with h | h
    · exact h ▸ List.mem_cons_self _ _
    · exact List.mem_cons_of_mem _ (List.mem_filter.mp (ih h)).1

theorem uniqueKeys_nodup : ∀ l : List String, (uniqueKeys l).Nodup := by
  intro l
  induction l using uniqueKeys.induct with
  | case1 => simp [uniqueKeys]
  | case2 k rest ih =>
    rw [uniqueKeys]
    refine List.Pairwise.cons ?_ ih
    intro b hb
    have hbk : b ≠ k := by
      simpa using (List.mem_filter.mp (uniqueKeys_subset _ hb)).2
    exact fun h => hbk h.symm

/-- Claim C7 — For every input record list, the key list emitted into
`locale_keys.g.dart` (the sorted unique keys computed by
`generateFlutterFiles`) is in strictly ascending lexicographic order,
whatever the order of the input records. -/
theorem locale_keys_sorted_strict (data : List TranslationPair) :
    List.Sorted (· < ·) (sortedKeysOf data) := by
  have hs : List.Sorted (· ≤ ·) (sortedKeysOf data) :=
    List.sorted_insertionSort (· ≤ ·) _
  have hperm : List.Perm (sortedKeysOf data)
      (uniqueKeys (data.map TranslationPair.key)) :=
    List.perm_insertionSort (· ≤ ·) _
  have hnd : (sortedKeysOf data).Nodup :=
    hperm.nodup_iff.mpr (uniqueKeys_nodup _)
  exact hs.lt_of_le hnd

/-! ### Claim C6: progress percentages -/

theorem jsRound_page_le (j n : Nat) (hj : j ≤ n) : jsRound (j * 30) n ≤ 30 := by
  rw [jsRound]
  rcases Nat.eq_zero_or_pos n with hn | hn
  · subst hn
    interval_cases j
    simp
  · have h1 : 2 * (j * 30) + n ≤ 61 * n := by omega
    calc (2 * (j * 30) + n) / (2 * n) ≤ 61 * n / (2 * n) :=
          Nat.div_le_div_right h1
      _ = 30 := by
          rw [show 61 * n = n * 61 by ring, show 2 * n = n * 2 by ring,
            Nat.mul_div_mul_left 61 2 hn]

theorem jsRound_batch_le (s n : Nat) (hs : s < n) :
    jsRound (30 * n + 60 * s) n ≤ 90 := by
  rw [jsRound]
  have hn : 0 < n := by omega
  have h1 : 2 * (30 * n + 60 * s) + n ≤ 181 * n := by omega
  calc (2 * (30 * n + 60 * s) + n) / (2 * n) ≤ 181 * n / (2 * n) :=
        Nat.div_le_div_right h1
    _ = 90 := by
        rw [show 181 * n = n * 181 by ring, show 2 * n = n * 2 by ring,
          Nat.mul_div_mul_left 181 2 hn]

theorem renderPages_events_le (n : Nat) :
    ∀ (rs : List RenderOutcome) (i : Nat), i + rs.length ≤ n + 1 →
      ∀ ev ∈ (renderPages n rs i).2, ev.percentage ≤ 100 := by
  intro rs
  induction rs with
  | nil =>
    intro i hi ev hev
    exact absurd hev (List.not_mem_nil ev)
  | cons r rest ih =>
    intro i hi ev hev
    have hbound : (pageEvent n i).percentage ≤ 100 := by
      have h30 : jsRound (i * 30) n ≤ 30 := by
        refine jsRound_page_le i n ?_
        simp only [List.length_cons] at hi
        omega
      simpa [pageEvent] using le_trans h30 (by omega)
    cases r with
    | err m =>
      have hev2 := List.mem_singleton.mp hev
      subst hev2
      exact hbound
    | ok data =>
      have hev2 : ev ∈ (match renderPages n rest (i + 1) with
          | (Except.error m, evs) => (Except.error m, pageEvent n i :: evs)
          | (Except.ok parts, evs) =>
            (Except.ok
              (if data ≠ "" then (⟨data, "image/jpeg"⟩ : ImagePart) :: parts
                else parts),
              pageEvent n i :: evs)).2 := hev
      rcases hr : renderPages n rest (i + 1) with ⟨res, evs⟩
      rw [hr] at hev2
      have hevs : ∀ e ∈ evs, e.percentage ≤ 100 := by
        have := ih (i + 1) (by simp only [List.length_cons] at hi; omega)
        rw [hr] at this
        exact this
      cases res with
      | error m =>
        rcases List.mem_cons.mp hev2 with h1 | h1
        · subst h1; exact hbound
        · exact hevs ev h1
      | ok parts =>
        rcases List.mem_cons.mp hev2 with h1 | h1
        · subst h1; exact hbound
        · exact hevs ev h1

theorem chunk5_range_mem (total : Nat) :
    ∀ b ∈ chunk5 (List.range total), ∀ s ∈ b, s < total := by
  intro b hb s hs
  have hmem : s ∈ (chunk5 (List.range total)).flatten :=
    List.mem_flatten.mpr ⟨b, hb, hs⟩
  rw [chunk5_flatten] at hmem
  exact List.mem_range.mp hmem

theorem processBatches_events_le
    (oracle : Nat → Except String (List TranslationPair)) (total : Nat)
    (hn : 0 < total) :
    ∀ (batches : List (List Nat)),
      (∀ b ∈ batches, ∀ s ∈ b, s < total) →
      ∀ ev ∈ (processBatches oracle total batches).2, ev.percentage ≤ 100 := by
  intro batches
  induction batches with
  | nil =>
    intro _ ev hev
    simp [processBatches] at hev
  | cons b rest ih =>
    intro hmem ev hev
    have hs : b.headD 0 < total := by
      cases b with
      | nil => simpa using hn
      | cons s bs => exact hmem _ (List.mem_cons_self _ _) s (List.mem_cons_self _ _)
    have hbound : (batchEvent total (b.headD 0)).percentage ≤ 100 := by
      simpa [batchEvent] using le_trans (jsRound_batch_le _ _ hs) (by omega)
    rw [processBatches] at hev
    rcases hrb : runBatch oracle b with m | ps
    · rw [hrb] at hev
      have hev2 := List.mem_singleton.mp hev
      subst hev2
      exact hbound
    · rw [hrb] at hev
      rcases hpr : processBatches oracle total rest with ⟨bres, bevs⟩
      rw [hpr] at hev
      have hbevs : ∀ e ∈ bevs, e.percentage ≤ 100 := by
        have := ih (fun b2 hb2 => hmem b2 (List.mem_cons_of_mem _ hb2))
        rw [hpr] at this
        exact this
      cases bres with
      | error m =>
        rcases List.mem_cons.mp hev with h1 | h1
        · subst h1; exact hbound
        · exact hbevs ev h1
      | ok more =>
        rcases List.mem_cons.mp hev with h1 | h1
        · subst h1; exact hbound
        · exact hbevs ev h1

theorem convert_events_le (co : Bool) (rs : List RenderOutcome) :
    ∀ ev ∈ (convertPdfPagesToImageParts co rs).2.2, ev.percentage ≤ 100 := by
  intro ev hev
  cases co with
  | false => exact absurd hev (List.not_mem_nil ev)
  | true =>
    rcases hr : renderPages rs.length rs 1 with ⟨res, evs⟩
    have hevs := renderPages_events_le rs.length rs 1 (by omega)
    rw [hr] at hevs
    cases res with
    | ok parts =>
      have h2 : (convertPdfPagesToImageParts true rs).2.2 = evs := by
        simp [convertPdfPagesToImageParts, hr]
      rw [h2] at hev
      exact hevs ev hev
    | error m =>
      have h2 : (convertPdfPagesToImageParts true rs).2.2 = evs := by
        simp [convertPdfPagesToImageParts, hr]
      rw [h2] at hev
      exact hevs ev hev

theorem gen_images_events_le (cfg : RunConfig) :
    ∀ ev ∈ (generateLocalizationFromPdfImages cfg).2, ev.percentage ≤ 100 := by
  intro ev hev
  rcases hconv : convertPdfPagesToImageParts cfg.contextOk cfg.pageRenders
    with ⟨res, alive, evs⟩
  have hevs : ∀ e ∈ evs, e.percentage ≤ 100 := by
    have := convert_events_le cfg.contextOk cfg.pageRenders
    rw [hconv] at this
    exact this
  cases res with
  | error m =>
    simp only [generateLocalizationFromPdfImages, hconv] at hev
    exact hevs ev hev
  | ok parts =>
    by_cases hlen : parts.length = 0
    · simp only [generateLocalizationFromPdfImages, hconv, hlen, if_pos] at hev
      exact hevs ev hev
    · rcases hpb : processBatches cfg.ocrOracle parts.length
          (chunk5 (List.range parts.length)) with ⟨bres, bevs⟩
      have hbevs : ∀ e ∈ bevs, e.percentage ≤ 100 := by
        have := processBatches_events_le cfg.ocrOracle parts.length
          (Nat.pos_of_ne_zero hlen) (chunk5 (List.range parts.length))
          (chunk5_range_mem parts.length)
        rw [hpb] at this
        exact this
      cases bres with
      | error m =>
        simp only [generateLocalizationFromPdfImages, hconv, hlen, if_neg hlen,
          hpb] at hev
        rcases List.mem_append.mp hev with h1 | h1
        · exact hevs ev h1
        · exact hbevs ev h1
      | ok allT =>
        simp only [generateLocalizationFromPdfImages, hconv, hlen, if_neg hlen,
          hpb] at hev
        rcases List.mem_append.mp hev with h1 | h1
        · rcases List.mem_append.mp h1 with h2 | h2
          · exact hevs ev h2
          · exact hbevs ev h2
        · simp only [List.mem_singleton] at h1
          subst h1
          decide

theorem pipelineData_events_le (cfg : RunConfig) :
    ∀ ev ∈ (pipelineData cfg).2, ev.percentage ≤ 100 := by
  intro ev hev
  rcases hp : chooseExtractionPath cfg.texts with _ | _
  · simp only [pipelineData, hp] at hev
    rcases List.mem_cons.mp hev with h1 | h1
    · subst h1; decide
    · simp only [List.mem_singleton] at h1
      subst h1
      decide
  · rcases hgen : generateLocalizationFromPdfImages cfg with ⟨res, evs⟩
    have hgevs : ∀ e ∈ evs, e.percentage ≤ 100 := by
      have := gen_images_events_le cfg
      rw [hgen] at this
      exact this
    simp only [pipelineData, hp, hgen] at hev
    rcases List.mem_cons.mp hev with h1 | h1
    · subst h1; decide
    rcases List.mem_cons.mp h1 with h2 | h2
    · subst h2; decide
    · exact hgevs ev h2

theorem run_events_direct (cfg : RunConfig) (h : 5 < cfg.texts.length) :
    nondecreasing
      (((processPdfForLocalization cfg).2).map ProgressEvent.percentage) = true := by
  have hp : chooseExtractionPath cfg.texts = PipelinePath.direct := by
    simp [chooseExtractionPath, h]
  have hpd : pipelineData cfg =
      (generateKeysAndTranslations cfg.directCall,
        [⟨"Extracting text from PDF...", 5⟩,
          ⟨"Generating keys & translations...", 50⟩]) := by
    simp [pipelineData, hp]
  rcases hk : generateKeysAndTranslations cfg.directCall with m | d
  · rw [hk] at hpd
    simp only [processPdfForLocalization, hpd]
    decide
  · rw [hk] at hpd
    by_cases hd : d.length = 0
    · simp only [processPdfForLocalization, hpd, hd, if_pos]
      decide
    · simp only [processPdfForLocalization, hpd, if_neg hd, List.map_append]
      decide

/-- Counterexample to claim C6 as stated: a successful 7-page OCR run
reports the percentage sequence `5, 10, 4, 9, 13, 17, 21, 26, 30, 30, 73,
90, 95`, which is not monotonically non-decreasing (10 is followed by 4). -/
theorem progress_monotone_counterexample :
    ((processPdfForLocalization cfgOcr7).2).map ProgressEvent.percentage =
      [5, 10, 4, 9, 13, 17, 21, 26, 30, 30, 73, 90, 95] ∧
    exceptIsOk (processPdfForLocalization cfgOcr7).1 = true ∧
    nondecreasing
        (((processPdfForLocalization cfgOcr7).2).map ProgressEvent.percentage) =
      false :=
  ⟨by decide, by decide, by decide⟩

/-- Claim C6 (amended) — Every percentage reported through the progress
callback lies between 0 and 100 (percentages are naturals, so 0 is a lower
bound by construction), and on the direct-translation path the reported
sequence is monotonically non-decreasing; on the OCR path monotonicity can
fail, because the first rasterization event can report less than the 10%
OCR-start event. -/
theorem progress_bounds_amended (cfg : RunConfig) (ev : ProgressEvent)
    (hev : ev ∈ (processPdfForLocalization cfg).2) :
    ev.percentage ≤ 100 ∧
    (5 < cfg.texts.length →
      nondecreasing
        (((processPdfForLocalization cfg).2).map ProgressEvent.percentage) =
        true) := by
  refine ⟨?_, fun h => run_events_direct cfg h⟩
  rcases hpd : pipelineData cfg with ⟨res, evs⟩
  have hevs : ∀ e ∈ evs, e.percentage ≤ 100 := by
    have := pipelineData_events_le cfg
    rw [hpd] at this
    exact this
  cases res with
  | error m =>
    simp only [processPdfForLocalization, hpd] at hev
    exact hevs ev hev
  | ok d =>
    by_cases hd : d.length = 0
    · simp only [processPdfForLocalization, hpd, hd, if_pos] at hev
      exact hevs ev hev
    · simp only [processPdfForLocalization, hpd, if_neg hd] at hev
      rcases List.mem_append.mp hev with h1 | h1
      · exact hevs ev h1
      · simp only [List.mem_singleton] at h1
        subst h1
        decide

theorem progress_bounds_amended_witness :
    (⟨"Extracting text from PDF...", 5⟩ : ProgressEvent) ∈
      (processPdfForLocalization cfgDirectOk).2 ∧
    (⟨"Extracting text from PDF...", 5⟩ : ProgressEvent).percentage ≤ 100 ∧
    5 < cfgDirectOk.texts.length ∧
    nondecreasing
      (((processPdfForLocalization cfgDirectOk).2).map ProgressEvent.percentage) =
      true := by
  have hmem : (⟨"Extracting text from PDF...", 5⟩ : ProgressEvent) ∈
      (processPdfForLocalization cfgDirectOk).2 := by decide
  obtain ⟨h1, h2⟩ := progress_bounds_amended cfgDirectOk _ hmem
  exact ⟨hmem, h1, by decide, h2 (by decide)⟩

end LocalizationPro
